import Mathlib

/-!
Verification of the hetzner-storage-box-tool (hsbt) repository.

Files are modelled as lists of lines (as produced by `ConfigFile.read`,
which strips the trailing newline of each line); the file system, where
needed, is modelled explicitly.  Python dictionaries are modelled as
association lists in insertion order, matching CPython dict semantics.
-/

namespace Hsbt

/-! ## src/hsbt/utils.py : ConfigFileEditor -/

/-- Configuration of `ConfigFileEditor.__init__` (src/hsbt/utils.py).
The file-system related fields (`target_file`, `create_file_if_not_exists`,
`create_mode`) are handled by modelling the target file as a line list. -/
structure ConfigFileEditor where
  line_comment_line_delimiter : String := "#"
  base_identifier : String := ""
  source_hint : String := "CONFIG LINES GENERATED BY HSBT SCRIPT"

/-- `ConfigFileEditor._get_start_delimiter`. -/
def ConfigFileEditor.get_start_delimiter (ed : ConfigFileEditor) (identifier : String) : String :=
  ed.line_comment_line_delimiter ++ " <" ++ ed.source_hint ++ " \x27" ++
    ed.base_identifier ++ "/" ++ identifier ++ "\x27>"

/-- `ConfigFileEditor._get_end_delimiter`. -/
def ConfigFileEditor.get_end_delimiter (ed : ConfigFileEditor) (identifier : String) : String :=
  ed.line_comment_line_delimiter ++ " </" ++ ed.source_hint ++ " \x27" ++
    ed.base_identifier ++ "/" ++ identifier ++ "\x27>"

/-- The main `while True` loop of `ConfigFileEditor.set_config_entry`,
operating on the remaining lines with the current `file.record` flag `r`.
Returns the lines that survive (removed lines dropped, the replacement
block inserted at the position of the end delimiter) together with the
`content_inserted` flag.

Line-by-line behaviour of the Python loop: a line equal to a delimiter is
removed immediately; a non-delimiter line is removed at the following
`next_line` call when `record` is false at that moment (so the last line of
the file is never removed this way); on the end delimiter the block
`[start_delimiter] + content + [end_delimiter]` is inserted via
`Line.insert_after`, which places it at the (removed) end delimiter's
position, and the cursor skips past the inserted lines. -/
def setEntryLoop (s e : String) (c : List String) : Bool → List String → List String × Bool
  | _, [] => ([], false)
  | r, l :: rest =>
    let r2 : Bool := if l = e then true else if l = s then false else r
    let emit : List String := if l = e ∧ c ≠ [] then s :: (c ++ [e]) else []
    let keep : List String := if l ≠ s ∧ l ≠ e ∧ (r2 = true ∨ rest = []) then [l] else []
    let next := setEntryLoop s e c r2 rest
    (emit ++ (keep ++ next.1), (decide (l = e)) || next.2)

/-- `ConfigFileEditor.set_config_entry` with the two delimiter lines as
parameters: run the loop, then (as in the Python code) append
`[start_delimiter] + content + [end_delimiter]` when no entry was replaced
and the content is non-empty. -/
def setConfigEntryCore (s e : String) (c : List String) (lines : List String) : List String :=
  let res := setEntryLoop s e c true lines
  if res.2 = false ∧ c ≠ [] then res.1 ++ s :: (c ++ [e]) else res.1

/-- `ConfigFileEditor.set_config_entry` (src/hsbt/utils.py, lines 391-422),
acting on the target file's lines. `content = []` models `content=None`
(both are falsy in the Python code). -/
def ConfigFileEditor.set_config_entry (ed : ConfigFileEditor) (content : List String)
    (identifier : String) (lines : List String) : List String :=
  setConfigEntryCore (ed.get_start_delimiter identifier) (ed.get_end_delimiter identifier)
    content lines

/-- `ConfigFileEditor.remove_config_entry` = `set_config_entry(content=None, ...)`. -/
def ConfigFileEditor.remove_config_entry (ed : ConfigFileEditor) (identifier : String)
    (lines : List String) : List String :=
  ed.set_config_entry [] identifier lines

/-- The scan loop of `ConfigFileEditor.get_config_entry`: per line, first an
end delimiter switches `cursor_in_entry` off, then the line is collected if
`cursor_in_entry` holds, then a start delimiter switches it on. -/
def getEntryLoop (s e : String) : Bool → List String → List String
  | _, [] => []
  | inE, l :: rest =>
    let in2 : Bool := if l = e then false else inE
    let acc : List String := if in2 = true then [l] else []
    let in3 : Bool := if l = s then true else in2
    acc ++ getEntryLoop s e in3 rest

/-- `ConfigFileEditor.get_config_entry` with explicit delimiters. The missing-
file and empty-file early returns both yield `[]`, which coincides with the
loop on the empty line list. -/
def getConfigEntryCore (s e : String) (lines : List String) : List String :=
  getEntryLoop s e false lines

/-- `ConfigFileEditor.get_config_entry` (src/hsbt/utils.py, lines 368-389). -/
def ConfigFileEditor.get_config_entry (ed : ConfigFileEditor) (identifier : String)
    (lines : List String) : List String :=
  getConfigEntryCore (ed.get_start_delimiter identifier) (ed.get_end_delimiter identifier) lines

/-- Lines that are neither the start nor the end delimiter. -/
def PlainLines (s e : String) (A : List String) : Prop :=
  ∀ l ∈ A, l ≠ s ∧ l ≠ e

instance (s e : String) (A : List String) : Decidable (PlainLines s e A) :=
  inferInstanceAs (Decidable (∀ l ∈ A, l ≠ s ∧ l ≠ e))

/-! ### Case lemmas for the loops -/

theorem setEntryLoop_nil (s e : String) (c : List String) (r : Bool) :
    setEntryLoop s e c r [] = ([], false) := rfl

theorem setEntryLoop_cons_start (s e : String) (c : List String) (r : Bool)
    (rest : List String) (hne : s ≠ e) :
    setEntryLoop s e c r (s :: rest) = setEntryLoop s e c false rest := by
  simp [setEntryLoop, hne]

theorem setEntryLoop_cons_end (s e : String) (c : List String) (r : Bool)
    (rest : List String) :
    setEntryLoop s e c r (e :: rest) =
      ((if c ≠ [] then s :: (c ++ [e]) else []) ++ (setEntryLoop s e c true rest).1, true) := by
  by_cases hc : c = [] <;> simp [setEntryLoop, hc]

theorem setEntryLoop_cons_other (s e : String) (c : List String) (r : Bool)
    (l : String) (rest : List String) (hs : l ≠ s) (he : l ≠ e) :
    setEntryLoop s e c r (l :: rest) =
      ((if r = true ∨ rest = [] then [l] else []) ++ (setEntryLoop s e c r rest).1,
        (setEntryLoop s e c r rest).2) := by
  simp [setEntryLoop, hs, he]

theorem getEntryLoop_nil (s e : String) (inE : Bool) : getEntryLoop s e inE [] = [] := rfl

theorem getEntryLoop_cons_start (s e : String) (inE : Bool) (rest : List String)
    (hne : s ≠ e) :
    getEntryLoop s e inE (s :: rest) =
      (if inE = true then [s] else []) ++ getEntryLoop s e true rest := by
  simp [getEntryLoop, hne]

theorem getEntryLoop_cons_end (s e : String) (inE : Bool) (rest : List String)
    (hne : s ≠ e) :
    getEntryLoop s e inE (e :: rest) = getEntryLoop s e false rest := by
  simp [getEntryLoop, Ne.symm hne]

theorem getEntryLoop_cons_other (s e : String) (inE : Bool) (l : String)
    (rest : List String) (hs : l ≠ s) (he : l ≠ e) :
    getEntryLoop s e inE (l :: rest) =
      (if inE = true then [l] else []) ++ getEntryLoop s e inE rest := by
  simp [getEntryLoop, hs, he]

/-- The generated start and end delimiters always differ: they have
different lengths (the end delimiter has one extra slash). -/
theorem ConfigFileEditor.start_delim_ne_end_delim (ed : ConfigFileEditor)
    (identifier : String) :
    ed.get_start_delimiter identifier ≠ ed.get_end_delimiter identifier := by
  intro h
  have hlen := congrArg String.length h
  simp only [ConfigFileEditor.get_start_delimiter, ConfigFileEditor.get_end_delimiter,
    String.length_append] at hlen
  have h1 : (" <" : String).length = 2 := rfl
  have h2 : (" </" : String).length = 3 := rfl
  have h3 : (" \x27" : String).length = 2 := rfl
  have h4 : ("/" : String).length = 1 := rfl
  have h5 : ("\x27>" : String).length = 2 := rfl
  simp only [h1, h2, h3, h4, h5] at hlen
  omega

/-! ### Structural lemmas for the editor loops -/

/-- Lines that are no delimiter are kept unchanged while `record` is true. -/
theorem setEntryLoop_plain_append (s e : String) (c : List String) (A rest : List String)
    (hA : PlainLines s e A) :
    setEntryLoop s e c true (A ++ rest) =
      (A ++ (setEntryLoop s e c true rest).1, (setEntryLoop s e c true rest).2) := by
  induction A with
  | nil => simp
  | cons a A ih =>
    have ha := hA a (List.mem_cons_self a A)
    have hA2 : PlainLines s e A := fun l hl => hA l (List.mem_cons_of_mem a hl)
    rw [List.cons_append, setEntryLoop_cons_other s e c true a (A ++ rest) ha.1 ha.2,
      ih hA2]
    simp

/-- While `record` is false, lines that are not the end delimiter are
dropped, as long as more lines follow. -/
theorem setEntryLoop_false_drop (s e : String) (c : List String) (m rest : List String)
    (hm : ∀ l ∈ m, l ≠ e) (hrest : rest ≠ []) :
    setEntryLoop s e c false (m ++ rest) = setEntryLoop s e c false rest := by
  induction m with
  | nil => simp
  | cons x m ih =>
    have hx := hm x (List.mem_cons_self x m)
    have hm2 : ∀ l ∈ m, l ≠ e := fun l hl => hm l (List.mem_cons_of_mem x hl)
    rw [List.cons_append]
    by_cases hxs : x = s
    · rw [hxs, setEntryLoop_cons_start s e c false (m ++ rest) (hxs ▸ hx), ih hm2]
    · rw [setEntryLoop_cons_other s e c false x (m ++ rest) hxs hx]
      have hne : m ++ rest ≠ [] := by
        intro hcontra
        rcases List.append_eq_nil.mp hcontra with ⟨_, h2⟩
        exact hrest h2
      simp [hne, ih hm2]

/-- Processing a well-formed block `s :: m ++ e :: B` replaces it by the new
block (when the content is non-empty) and continues on `B` with `record`
true and `content_inserted` set. -/
theorem setEntryLoop_block (s e : String) (c : List String) (m B : List String)
    (hm : ∀ l ∈ m, l ≠ e) (hne : s ≠ e) :
    setEntryLoop s e c true (s :: (m ++ e :: B)) =
      ((if c ≠ [] then s :: (c ++ [e]) else []) ++ (setEntryLoop s e c true B).1, true) := by
  rw [setEntryLoop_cons_start s e c true (m ++ e :: B) hne,
    setEntryLoop_false_drop s e c m (e :: B) hm (by simp),
    setEntryLoop_cons_end s e c false B]

/-- A file with no delimiter line at all passes through the loop unchanged. -/
theorem setEntryLoop_plain_id (s e : String) (c : List String) (B : List String)
    (hB : PlainLines s e B) :
    setEntryLoop s e c true B = (B, false) := by
  have h := setEntryLoop_plain_append s e c B [] hB
  simpa [setEntryLoop_nil] using h

/-- If the end delimiter does not occur, no insertion happens and the
surviving lines contain no delimiter line. -/
theorem setEntryLoop_no_end (s e : String) (c : List String) :
    ∀ (f : List String) (r : Bool), e ∉ f →
      (setEntryLoop s e c r f).2 = false ∧ PlainLines s e (setEntryLoop s e c r f).1 := by
  intro f
  induction f with
  | nil => intro r _; exact ⟨rfl, fun l hl => absurd hl (List.not_mem_nil l)⟩
  | cons l rest ih =>
    intro r hne
    have hle : l ≠ e := fun h => hne (h ▸ List.mem_cons_self l rest)
    have hrest : e ∉ rest := fun h => hne (List.mem_cons_of_mem l h)
    by_cases hls : l = s
    · rw [hls, setEntryLoop_cons_start s e c r rest (hls ▸ hle)]
      exact ih false hrest
    · rw [setEntryLoop_cons_other s e c r l rest hls hle]
      refine ⟨(ih r hrest).1, ?_⟩
      intro x hx
      rcases List.mem_append.mp hx with hx1 | hx2
      · by_cases hcond : r = true ∨ rest = []
        · rw [if_pos hcond] at hx1
          exact (List.mem_singleton.mp hx1) ▸ ⟨hls, hle⟩
        · rw [if_neg hcond] at hx1
          exact absurd hx1 (List.not_mem_nil x)
      · exact (ih r hrest).2 x hx2

/-- Processing `A ++ e :: B` where `e ∉ A`: the lines of `A` that survive
are plain, the block is inserted at the position of `e`, and the loop
continues on `B` with `record` true; `content_inserted` ends up true. -/
theorem setEntryLoop_first_end (s e : String) (c : List String) :
    ∀ (A B : List String) (r : Bool), e ∉ A →
      ∃ K, PlainLines s e K ∧
        setEntryLoop s e c r (A ++ e :: B) =
          (K ++ ((if c ≠ [] then s :: (c ++ [e]) else []) ++ (setEntryLoop s e c true B).1),
            true) := by
  intro A
  induction A with
  | nil =>
    intro B r _
    refine ⟨[], fun l hl => absurd hl (List.not_mem_nil l), ?_⟩
    rw [List.nil_append, setEntryLoop_cons_end s e c r B]
    simp
  | cons a A ih =>
    intro B r hne
    have hae : a ≠ e := fun h => hne (h ▸ List.mem_cons_self a A)
    have hA : e ∉ A := fun h => hne (List.mem_cons_of_mem a h)
    by_cases has : a = s
    · rcases ih B false hA with ⟨K, hK, hEq⟩
      refine ⟨K, hK, ?_⟩
      rw [List.cons_append, has, setEntryLoop_cons_start s e c r (A ++ e :: B) (has ▸ hae),
        hEq]
    · have hnil : A ++ e :: B ≠ [] := by simp
      rcases ih B r hA with ⟨K, hK, hEq⟩
      by_cases hr : r = true
      · refine ⟨a :: K, ?_, ?_⟩
        · intro l hl
          rcases List.mem_cons.mp hl with h1 | h2
          · exact h1 ▸ ⟨has, hae⟩
          · exact hK l h2
        · rw [List.cons_append, setEntryLoop_cons_other s e c r a (A ++ e :: B) has hae,
            hEq]
          simp [hr]
      · refine ⟨K, hK, ?_⟩
        rw [List.cons_append, setEntryLoop_cons_other s e c r a (A ++ e :: B) has hae,
          hEq]
        simp [hr, hnil]

/-- Lines outside an entry that are not delimiters are skipped by the
`get_config_entry` scan. -/
theorem getEntryLoop_skip_plain (s e : String) (A rest : List String)
    (hA : PlainLines s e A) :
    getEntryLoop s e false (A ++ rest) = getEntryLoop s e false rest := by
  induction A with
  | nil => simp
  | cons a A ih =>
    have ha := hA a (List.mem_cons_self a A)
    have hA2 : PlainLines s e A := fun l hl => hA l (List.mem_cons_of_mem a hl)
    rw [List.cons_append, getEntryLoop_cons_other s e false a (A ++ rest) ha.1 ha.2,
      ih hA2]
    simp

/-- Inside an entry, lines up to the closing delimiter are collected. -/
theorem getEntryLoop_collect (s e : String) (c rest : List String)
    (hc : ∀ l ∈ c, l ≠ e) (hne : s ≠ e) :
    getEntryLoop s e true (c ++ e :: rest) = c ++ getEntryLoop s e false rest := by
  induction c with
  | nil => rw [List.nil_append, getEntryLoop_cons_end s e true rest hne]; simp
  | cons x c ih =>
    have hx := hc x (List.mem_cons_self x c)
    have hc2 : ∀ l ∈ c, l ≠ e := fun l hl => hc l (List.mem_cons_of_mem x hl)
    rw [List.cons_append]
    by_cases hxs : x = s
    · rw [hxs, getEntryLoop_cons_start s e true (c ++ e :: rest) hne]
      simp [ih hc2]
    · rw [getEntryLoop_cons_other s e true x (c ++ e :: rest) hxs hx]
      simp [ih hc2]

/-- A whole block is read back as exactly its content. -/
theorem getEntryLoop_block (s e : String) (c rest : List String)
    (hc : ∀ l ∈ c, l ≠ e) (hne : s ≠ e) :
    getEntryLoop s e false (s :: (c ++ e :: rest)) = c ++ getEntryLoop s e false rest := by
  rw [getEntryLoop_cons_start s e false (c ++ e :: rest) hne]
  simp [getEntryLoop_collect s e c rest hc hne]

/-- Plain lines alone produce no entry content. -/
theorem getEntryLoop_plain_nil (s e : String) (A : List String) (hA : PlainLines s e A) :
    getEntryLoop s e false A = [] := by
  have h := getEntryLoop_skip_plain s e A [] hA
  simpa [getEntryLoop_nil] using h

theorem setConfigEntryCore_eq (s e : String) (c f : List String) :
    setConfigEntryCore s e c f =
      if (setEntryLoop s e c true f).2 = false ∧ c ≠ [] then
        (setEntryLoop s e c true f).1 ++ s :: (c ++ [e])
      else (setEntryLoop s e c true f).1 := rfl

/-- Round trip of the editor: writing a non-empty entry and reading it back
yields exactly the content, provided the content lines are no delimiter
lines and the previous file contains at most one end-delimiter line. -/
theorem set_get_roundtrip_core (s e : String) (c f : List String)
    (hne : s ≠ e) (hc : c ≠ []) (hce : ∀ l ∈ c, l ≠ e)
    (hcount : List.count e f ≤ 1) :
    getConfigEntryCore s e (setConfigEntryCore s e c f) = c := by
  by_cases hef : e ∈ f
  · obtain ⟨A, B, rfl⟩ := List.append_of_mem hef
    have hA0 : List.count e A = 0 ∧ List.count e B = 0 := by
      rw [List.count_append, List.count_cons_self] at hcount
      omega
    have hcA : e ∉ A := List.count_eq_zero.mp hA0.1
    have hcB : e ∉ B := List.count_eq_zero.mp hA0.2
    obtain ⟨K, hK, hEq⟩ := setEntryLoop_first_end s e c A B true hcA
    obtain ⟨hB2, hBplain⟩ := setEntryLoop_no_end s e c B true hcB
    rw [setConfigEntryCore_eq, hEq]
    simp only [if_neg (by simp : ¬((K ++ ((if c ≠ [] then s :: (c ++ [e]) else []) ++
      (setEntryLoop s e c true B).1), true).2 = false ∧ c ≠ []))]
    rw [if_pos hc, getConfigEntryCore, getEntryLoop_skip_plain s e K _ hK]
    have hshape : (s :: (c ++ [e])) ++ (setEntryLoop s e c true B).1 =
        s :: (c ++ e :: (setEntryLoop s e c true B).1) := by simp
    rw [hshape, getEntryLoop_block s e c _ hce hne,
      getEntryLoop_plain_nil s e _ hBplain, List.append_nil]
  · obtain ⟨hf2, hfplain⟩ := setEntryLoop_no_end s e c f true hef
    rw [setConfigEntryCore_eq, if_pos ⟨hf2, hc⟩, getConfigEntryCore,
      getEntryLoop_skip_plain s e _ _ hfplain]
    have hshape : (s :: (c ++ [e]) : List String) = s :: (c ++ e :: []) := by simp
    rw [hshape, getEntryLoop_block s e c [] hce hne, getEntryLoop_nil, List.append_nil]

/-! ### Files in editor normal form and idempotence of `set_config_entry` -/

/-- Normal form produced by `set_config_entry` with content `c`: a mix of
non-delimiter lines and complete blocks `s :: c ++ [e]`. -/
inductive CleanFor (s e : String) (c : List String) : List String → Prop
  | nil : CleanFor s e c []
  | plain {l : String} {rest : List String} :
      l ≠ s → l ≠ e → CleanFor s e c rest → CleanFor s e c (l :: rest)
  | block {rest : List String} :
      c ≠ [] → CleanFor s e c rest → CleanFor s e c (s :: (c ++ e :: rest))

theorem CleanFor.append_block {s e : String} {c : List String} {g : List String}
    (hg : CleanFor s e c g) (hc : c ≠ []) :
    CleanFor s e c (g ++ s :: (c ++ [e])) := by
  induction hg with
  | nil =>
    rw [List.nil_append]
    have : (s :: (c ++ [e]) : List String) = s :: (c ++ e :: []) := by simp
    rw [this]
    exact CleanFor.block hc CleanFor.nil
  | plain hls hle _ ih => exact CleanFor.plain hls hle ih
  | block hcne _ ih =>
    rw [List.cons_append, List.append_assoc, List.cons_append]
    exact CleanFor.block hcne ih

/-- The survivors of the set loop are always in normal form. -/
theorem setEntryLoop_clean (s e : String) (c : List String) :
    ∀ (f : List String) (r : Bool), CleanFor s e c (setEntryLoop s e c r f).1 := by
  intro f
  induction f with
  | nil => intro r; exact CleanFor.nil
  | cons l rest ih =>
    intro r
    by_cases hle : l = e
    · rw [hle, setEntryLoop_cons_end s e c r rest]
      by_cases hc : c = []
      · simpa [hc] using ih true
      · have hblock := CleanFor.block (s := s) (e := e) hc (ih true)
        simpa [hc] using hblock
    · by_cases hls : l = s
      · rw [hls, setEntryLoop_cons_start s e c r rest (hls ▸ hle)]
        exact ih false
      · rw [setEntryLoop_cons_other s e c r l rest hls hle]
        by_cases hcond : r = true ∨ rest = []
        · simpa [hcond] using CleanFor.plain hls hle (ih r)
        · simpa [hcond] using ih r

/-- When an insertion happened with non-empty content, the end delimiter
occurs among the surviving lines. -/
theorem setEntryLoop_inserted_mem (s e : String) (c : List String) (hc : c ≠ []) :
    ∀ (f : List String) (r : Bool), (setEntryLoop s e c r f).2 = true →
      e ∈ (setEntryLoop s e c r f).1 := by
  intro f
  induction f with
  | nil => intro r h; simp [setEntryLoop_nil] at h
  | cons l rest ih =>
    intro r h
    by_cases hle : l = e
    · rw [hle, setEntryLoop_cons_end s e c r rest]
      simp [hc]
    · by_cases hls : l = s
      · rw [hls, setEntryLoop_cons_start s e c r rest (hls ▸ hle)]
        apply ih false
        rw [hls, setEntryLoop_cons_start s e c r rest (hls ▸ hle)] at h
        exact h
      · rw [setEntryLoop_cons_other s e c r l rest hls hle]
        rw [setEntryLoop_cons_other s e c r l rest hls hle] at h
        simp only at h
        have h2 : (setEntryLoop s e c r rest).2 = true := by
          simpa [hle] using h
        exact List.mem_append_right _ (ih r h2)

/-- A file in normal form is a fixed point of the set loop, and the
`content_inserted` flag reports whether a block (equivalently, the end
delimiter) is present. -/
theorem setEntryLoop_fixed (s e : String) (c : List String) (hne : s ≠ e)
    (hce : ∀ l ∈ c, l ≠ e) :
    ∀ {g : List String}, CleanFor s e c g →
      (setEntryLoop s e c true g).1 = g ∧
        ((setEntryLoop s e c true g).2 = true ↔ e ∈ g) := by
  intro g hg
  induction hg with
  | nil => simp [setEntryLoop_nil]
  | @plain l rest hls hle _ ih =>
    rw [setEntryLoop_cons_other s e c true l rest hls hle]
    constructor
    · simp [ih.1]
    · simp only
      rw [ih.2]
      constructor
      · intro h; exact List.mem_cons_of_mem l h
      · intro h
        rcases List.mem_cons.mp h with h1 | h2
        · exact absurd h1.symm hle
        · exact h2
  | @block rest hc _ ih =>
    rw [setEntryLoop_cons_start s e c true (c ++ e :: rest) hne,
      setEntryLoop_false_drop s e c c (e :: rest) hce (by simp),
      setEntryLoop_cons_end s e c false rest]
    constructor
    · simp [hc, ih.1]
    · simp

/-- `set_config_entry` is idempotent whenever no content line equals the end
delimiter (in particular for `remove_config_entry`, where the content is
empty). -/
theorem set_idempotent_core (s e : String) (c f : List String)
    (hne : s ≠ e) (hce : ∀ l ∈ c, l ≠ e) :
    setConfigEntryCore s e c (setConfigEntryCore s e c f) = setConfigEntryCore s e c f := by
  by_cases hc : c = []
  · subst hc
    have hg : setConfigEntryCore s e [] f = (setEntryLoop s e [] true f).1 := by
      rw [setConfigEntryCore_eq]; simp
    have hclean := setEntryLoop_clean s e [] f true
    rw [hg, setConfigEntryCore_eq]
    simp [(setEntryLoop_fixed s e [] hne (by simp) hclean).1]
  · have hclean : CleanFor s e c (setConfigEntryCore s e c f) ∧
        e ∈ setConfigEntryCore s e c f := by
      rw [setConfigEntryCore_eq]
      by_cases hins : (setEntryLoop s e c true f).2 = false
      · rw [if_pos ⟨hins, hc⟩]
        refine ⟨(setEntryLoop_clean s e c f true).append_block hc, ?_⟩
        exact List.mem_append_right _ (by simp)
      · have h2 : (setEntryLoop s e c true f).2 = true := by
          cases h : (setEntryLoop s e c true f).2 with
          | false => exact absurd h hins
          | true => rfl
        rw [if_neg (by simp [h2])]
        exact ⟨setEntryLoop_clean s e c f true,
          setEntryLoop_inserted_mem s e c hc f true h2⟩
    obtain ⟨hcl, hmem⟩ := hclean
    have hfix := setEntryLoop_fixed s e c hne hce hcl
    rw [setConfigEntryCore_eq (s := s) (e := e) (c := c)
      (f := setConfigEntryCore s e c f)]
    rw [if_neg ?hcond]
    · exact hfix.1
    case hcond =>
      intro hcontra
      have := hfix.2.mpr hmem
      rw [hcontra.1] at this
      exact Bool.false_ne_true this

/-- Frame behaviour on a file consisting of plain lines around one
well-formed block of the edited identifier. -/
theorem set_frame_core (s e : String) (c A m B : List String) (hne : s ≠ e)
    (hA : PlainLines s e A) (hm : PlainLines s e m) (hB : PlainLines s e B) :
    setConfigEntryCore s e c (A ++ s :: (m ++ e :: B)) =
      A ++ ((if c ≠ [] then s :: (c ++ [e]) else []) ++ B) := by
  rw [setConfigEntryCore_eq, setEntryLoop_plain_append s e c A _ hA,
    setEntryLoop_block s e c m B (fun l hl => (hm l hl).2) hne,
    setEntryLoop_plain_id s e c B hB]
  simp

/-! ## Claims C1, C2, C3 about the marked-block editor -/

/-- C1 (amended): round trip of the marked-block editor. For every
identifier, every non-empty content whose lines equal no generated
delimiter line, and every target file that contains at most one line equal
to the generated end delimiter, after `set_config_entry(content, i)` a
`get_config_entry(i)` returns exactly the content lines, in order. -/
theorem claim_C1_roundtrip (ed : ConfigFileEditor) (identifier : String)
    (content f : List String)
    (hne : content ≠ [])
    (hplain : ∀ l ∈ content, l ≠ ed.get_start_delimiter identifier ∧
      l ≠ ed.get_end_delimiter identifier)
    (hcount : List.count (ed.get_end_delimiter identifier) f ≤ 1) :
    ed.get_config_entry identifier (ed.set_config_entry content identifier f) = content :=
  set_get_roundtrip_core (ed.get_start_delimiter identifier)
    (ed.get_end_delimiter identifier) content f
    (ed.start_delim_ne_end_delim identifier) hne (fun l hl => (hplain l hl).2) hcount

theorem claim_C1_roundtrip_witness :
    ConfigFileEditor.get_config_entry {} "mount1"
      (ConfigFileEditor.set_config_entry {} ["line a", "line b"] "mount1" ["keep me"]) =
      ["line a", "line b"] :=
  claim_C1_roundtrip {} "mount1" ["line a", "line b"] ["keep me"]
    (by decide) (by decide) (by decide)

/-- C1 counterexample: the claim as stated fails on a target file that
already contains two copies of the generated end-delimiter line (the loop
triggers one insertion per end delimiter, so the entry is read back
twice). The content satisfies all conditions of the claim. -/
theorem claim_C1_counterexample :
    (["x"] ≠ ([] : List String) ∧
      "x" ≠ ConfigFileEditor.get_start_delimiter {} "i" ∧
      "x" ≠ ConfigFileEditor.get_end_delimiter {} "i") ∧
    ConfigFileEditor.get_config_entry {} "i"
      (ConfigFileEditor.set_config_entry {} ["x"] "i"
        [ConfigFileEditor.get_end_delimiter {} "i",
          ConfigFileEditor.get_end_delimiter {} "i"]) ≠ ["x"] := by
  decide

/-- C2 (amended): idempotence of the marked-block editor. A second
`set_config_entry` with the same content and identifier leaves the file
lines unchanged, provided no content line equals the generated end
delimiter; a second `remove_config_entry` is unconditionally a no-op. -/
theorem claim_C2_idempotent (ed : ConfigFileEditor) (identifier : String)
    (content f : List String)
    (hce : ∀ l ∈ content, l ≠ ed.get_end_delimiter identifier) :
    ed.set_config_entry content identifier
        (ed.set_config_entry content identifier f) =
      ed.set_config_entry content identifier f ∧
    ed.remove_config_entry identifier (ed.remove_config_entry identifier f) =
      ed.remove_config_entry identifier f := by
  refine ⟨?_, ?_⟩
  · exact set_idempotent_core _ _ content f (ed.start_delim_ne_end_delim identifier) hce
  · exact set_idempotent_core _ _ [] f (ed.start_delim_ne_end_delim identifier) (by simp)

theorem claim_C2_idempotent_witness :
    ConfigFileEditor.set_config_entry {} ["entry"] "id1"
        (ConfigFileEditor.set_config_entry {} ["entry"] "id1" ["other line"]) =
      ConfigFileEditor.set_config_entry {} ["entry"] "id1" ["other line"] ∧
    ConfigFileEditor.remove_config_entry {} "id1"
        (ConfigFileEditor.remove_config_entry {} "id1" ["other line"]) =
      ConfigFileEditor.remove_config_entry {} "id1" ["other line"] :=
  claim_C2_idempotent {} "id1" ["entry"] ["other line"] (by decide)

/-- C2 counterexample: the claim as stated quantifies over every content;
it fails when a content line equals the generated end delimiter (starting
from the empty file, the first call writes the block, the second call then
duplicates it). -/
theorem claim_C2_counterexample :
    ConfigFileEditor.set_config_entry {} [ConfigFileEditor.get_end_delimiter {} "i"] "i"
        (ConfigFileEditor.set_config_entry {}
          [ConfigFileEditor.get_end_delimiter {} "i"] "i" []) ≠
      ConfigFileEditor.set_config_entry {}
        [ConfigFileEditor.get_end_delimiter {} "i"] "i" [] := by
  decide

/-- C3 (amended): frame property of the marked-block editor. When the
identifier's delimiters occur in the file only as (at most) one well-formed
block and all other lines are non-delimiter lines, `set_config_entry`
replaces exactly that block (or appends a fresh one at the end when none
exists) and `remove_config_entry` deletes exactly that block; every other
line is preserved unchanged and in its original relative order. -/
theorem claim_C3_frame (ed : ConfigFileEditor) (identifier : String)
    (content A m B f : List String)
    (hA : PlainLines (ed.get_start_delimiter identifier) (ed.get_end_delimiter identifier) A)
    (hm : PlainLines (ed.get_start_delimiter identifier) (ed.get_end_delimiter identifier) m)
    (hB : PlainLines (ed.get_start_delimiter identifier) (ed.get_end_delimiter identifier) B)
    (hf : PlainLines (ed.get_start_delimiter identifier) (ed.get_end_delimiter identifier) f)
    (hc : content ≠ []) :
    ed.set_config_entry content identifier
        (A ++ ed.get_start_delimiter identifier ::
          (m ++ ed.get_end_delimiter identifier :: B)) =
      A ++ ed.get_start_delimiter identifier ::
        (content ++ ed.get_end_delimiter identifier :: B) ∧
    ed.remove_config_entry identifier
        (A ++ ed.get_start_delimiter identifier ::
          (m ++ ed.get_end_delimiter identifier :: B)) = A ++ B ∧
    ed.set_config_entry content identifier f =
      f ++ ed.get_start_delimiter identifier ::
        (content ++ [ed.get_end_delimiter identifier]) ∧
    ed.remove_config_entry identifier f = f := by
  have hne := ed.start_delim_ne_end_delim identifier
  refine ⟨?_, ?_, ?_, ?_⟩
  · have h := set_frame_core _ _ content A m B hne hA hm hB
    rw [ConfigFileEditor.set_config_entry, h, if_pos hc]
    simp
  · have h := set_frame_core _ _ [] A m B hne hA hm hB
    rw [ConfigFileEditor.remove_config_entry, ConfigFileEditor.set_config_entry, h]
    simp
  · rw [ConfigFileEditor.set_config_entry, setConfigEntryCore_eq,
      setEntryLoop_plain_id _ _ content f hf]
    simp [hc]
  · rw [ConfigFileEditor.remove_config_entry, ConfigFileEditor.set_config_entry,
      setConfigEntryCore_eq, setEntryLoop_plain_id _ _ [] f hf]
    simp

theorem claim_C3_frame_witness :
    ConfigFileEditor.set_config_entry {} ["new"] "i"
        (["before"] ++ ConfigFileEditor.get_start_delimiter {} "i" ::
          (["old"] ++ ConfigFileEditor.get_end_delimiter {} "i" :: ["after"])) =
      ["before"] ++ ConfigFileEditor.get_start_delimiter {} "i" ::
        (["new"] ++ ConfigFileEditor.get_end_delimiter {} "i" :: ["after"]) ∧
    ConfigFileEditor.remove_config_entry {} "i"
        (["before"] ++ ConfigFileEditor.get_start_delimiter {} "i" ::
          (["old"] ++ ConfigFileEditor.get_end_delimiter {} "i" :: ["after"])) =
      ["before"] ++ ["after"] ∧
    ConfigFileEditor.set_config_entry {} ["new"] "i" ["plain"] =
      ["plain"] ++ ConfigFileEditor.get_start_delimiter {} "i" ::
        (["new"] ++ [ConfigFileEditor.get_end_delimiter {} "i"]) ∧
    ConfigFileEditor.remove_config_entry {} "i" ["plain"] = ["plain"] :=
  claim_C3_frame {} "i" ["new"] ["before"] ["old"] ["after"] ["plain"]
    (by decide) (by decide) (by decide) (by decide) (by decide)

/-- C3 counterexample: the claim as stated fails on a file containing a
stray start delimiter with no end delimiter: the file contains no delimited
block for the identifier, yet the following non-delimiter line "X" is
deleted by `set_config_entry`. -/
theorem claim_C3_counterexample :
    ("X" ∈ ([ConfigFileEditor.get_start_delimiter {} "i", "X", "Y"] : List String) ∧
      "X" ≠ ConfigFileEditor.get_start_delimiter {} "i" ∧
      "X" ≠ ConfigFileEditor.get_end_delimiter {} "i" ∧
      ConfigFileEditor.get_end_delimiter {} "i" ∉
        ([ConfigFileEditor.get_start_delimiter {} "i", "X", "Y"] : List String)) ∧
    "X" ∉ ConfigFileEditor.set_config_entry {} ["c"] "i"
      [ConfigFileEditor.get_start_delimiter {} "i", "X", "Y"] := by
  decide

/-! ## Shared helpers: Python dicts as association lists, str.join -/

/-- `d[k] = v` on a Python dict: update in place, else append (insertion
order preserved). -/
def dict_set {α : Type} : List (String × α) → String → α → List (String × α)
  | [], k, v => [(k, v)]
  | (k2, v2) :: rest, k, v =>
    if k2 = k then (k, v) :: rest else (k2, v2) :: dict_set rest k v

/-- `d.get(k)` on a Python dict. -/
def dict_get {α : Type} : List (String × α) → String → Option α
  | [], _ => none
  | (k2, v2) :: rest, k => if k2 = k then some v2 else dict_get rest k

theorem dict_get_dict_set_self {α : Type} (m : List (String × α)) (k : String) (v : α) :
    dict_get (dict_set m k v) k = some v := by
  induction m with
  | nil => simp [dict_set, dict_get]
  | cons kv rest ih =>
    by_cases h : kv.1 = k
    · simp [dict_set, dict_get, h]
    · simp [dict_set, dict_get, h, ih]

/-- Python `sep.join(parts)`. -/
def join_with (sep : String) : List String → String
  | [] => ""
  | [x] => x
  | x :: rest => x ++ sep ++ join_with sep rest

/-! ## src/hsbt/utils.py : open_process / run_command (claim C4) -/

/-- Abstract outcome of the subprocess spawned by `open_process`: the
stdout lines accumulated by the streaming loop, the value of
`stdout_current` when the loop breaks, the stderr text, and the exit
code. The actual process execution is outside the model. -/
structure ProcessExit where
  stdout_lines : List String
  stdout_current : String
  stderr : String
  return_code : Int
  deriving DecidableEq, Repr

/-- `ProcessOutput` dataclass of src/hsbt/utils.py. A raised
`ChildProcessError` is modelled by its message string. -/
structure ProcessOutput where
  command : String
  stdout_lines : List String
  stderr : String
  return_code : Option Int
  error_for_raise : Option String
  deriving DecidableEq, Repr

/-- The `e_msg` f-string of `open_process` (src/hsbt/utils.py line 183). -/
def child_process_error_msg (command : String) (return_code : Int)
    (stderr stdout_current : String) : String :=
  "Command \x27" ++ command ++ "\x27. ErrorCode: " ++ toString return_code ++ " " ++
    (if stderr ≠ "" then "stderr:\n" ++ stderr else "") ++ " " ++
    (if stdout_current ≠ "" then "\nstdout laste line:\n" ++ stdout_current else "")

/-- Final step of `open_process` (src/hsbt/utils.py lines 179-187): after
the process exits, record the return code, build `error_for_raise` when it
is non-zero, raise it when `raise_error` is set, otherwise yield the
output object. -/
def open_process_final (command : String) (p : ProcessExit) (raise_error : Bool) :
    Except String ProcessOutput :=
  let err : Option String :=
    if p.return_code ≠ 0 then
      some (child_process_error_msg command p.return_code p.stderr p.stdout_current)
    else none
  let out : ProcessOutput :=
    { command := command, stdout_lines := p.stdout_lines, stderr := p.stderr,
      return_code := some p.return_code, error_for_raise := err }
  if p.return_code ≠ 0 ∧ raise_error = true then
    Except.error (child_process_error_msg command p.return_code p.stderr p.stdout_current)
  else Except.ok out

/-- `CommandResult` dataclass of src/hsbt/utils.py. -/
structure CommandResult where
  command : String
  stdout : String
  stderr : String
  return_code : Option Int
  error_for_raise : Option String
  deriving DecidableEq, Repr

/-- `run_command` (src/hsbt/utils.py lines 199-215): drain the
`open_process` generator and repackage its final yield as a
`CommandResult` (the code after the first `return` is unreachable). -/
def run_command (command : String) (p : ProcessExit) (raise_error : Bool) :
    Except String CommandResult :=
  match open_process_final command p raise_error with
  | Except.error msg => Except.error msg
  | Except.ok out =>
    Except.ok
      { command := out.command
        stdout := join_with "\n" out.stdout_lines
        stderr := out.stderr
        return_code := out.return_code
        error_for_raise := out.error_for_raise }

/-- C4: error surfacing of `run_command`. With `raise_error=True` a
`ChildProcessError` is raised exactly when the subprocess exit code is
non-zero; on exit code zero the returned `CommandResult` has
`return_code = 0` and `error_for_raise = None`. -/
theorem claim_C4_error_surfacing (command : String) (p : ProcessExit) :
    ((∃ msg, run_command command p true = Except.error msg) ↔ p.return_code ≠ 0) ∧
    (p.return_code = 0 →
      ∃ r, run_command command p true = Except.ok r ∧
        r.return_code = some 0 ∧ r.error_for_raise = none) := by
  constructor
  · constructor
    · rintro ⟨msg, hmsg⟩ h0
      rw [run_command, open_process_final] at hmsg
      simp [h0] at hmsg
    · intro hnz
      refine ⟨child_process_error_msg command p.return_code p.stderr p.stdout_current, ?_⟩
      rw [run_command, open_process_final]
      simp [hnz]
  · intro h0
    refine ⟨{ command := command
              stdout := join_with "\n" p.stdout_lines
              stderr := p.stderr
              return_code := some 0
              error_for_raise := none }, ?_, rfl, rfl⟩
    rw [run_command, open_process_final]
    simp [h0]

theorem claim_C4_error_surfacing_witness :
    ((∃ msg, run_command "ls" ⟨["ok"], "", "", 0⟩ true = Except.error msg) ↔
      (0 : Int) ≠ 0) ∧
    ((0 : Int) = 0 →
      ∃ r, run_command "ls" ⟨["ok"], "", "", 0⟩ true = Except.ok r ∧
        r.return_code = some 0 ∧ r.error_for_raise = none) :=
  claim_C4_error_surfacing "ls" ⟨["ok"], "", "", 0⟩

/-! ## src/hsbt/connection_manager.py (claims C5, C8, C9) -/

/-- `ConnectionManager.Connection` pydantic model. -/
structure Connection where
  identifier : String
  host : String
  user : String
  key_dir : String
  deriving DecidableEq, Repr

/-- `ConnectionManager.ConnectionList`: its `connections` dict, modelled as
an association list in insertion order. A config file on disk is
`Option ConnectionList` (`none` = missing/empty/unreadable file). -/
abbrev ConnectionList := List (String × Connection)

/-- `ConnectionList.extend_connections`: Python dict union `a | b` (keys of
`a` in order with values overridden by `b`, then the new keys of `b`). -/
def ConnectionList.extend_connections (a b : ConnectionList) : ConnectionList :=
  (a.map (fun kv => (kv.1, (dict_get b kv.1).getD kv.2))) ++
    b.filter (fun kv => (dict_get a kv.1).isNone)

/-- `ConnectionList.set_connection` (src/hsbt/connection_manager.py lines
30-45): raise `ValueError` when the identifier exists and
`ovewrite_existing` is not set; return unchanged when it exists and
`exist_ok` is set; otherwise store the connection. -/
def ConnectionList.set_connection (self : ConnectionList) (other : Connection)
    (ovewrite_existing exist_ok : Bool) : Except String ConnectionList :=
  if dict_get self other.identifier ≠ none ∧ ovewrite_existing = false then
    Except.error ("Connection \x27" ++ other.identifier ++ "\x27 already exist.")
  else if dict_get self other.identifier ≠ none ∧ exist_ok = true then
    Except.ok self
  else
    Except.ok (dict_set self other.identifier other)

/-- `ConnectionList.get_connection`. -/
def ConnectionList.get_connection (self : ConnectionList) (identifier : String) :
    Option Connection :=
  dict_get self identifier

/-- `ConnectionList.remove_connection` (by identifier): dict comprehension
keeping every key different from the identifier. -/
def ConnectionList.remove_connection (self : ConnectionList) (conid : String) :
    ConnectionList :=
  self.filter (fun kv => kv.1 != conid)

/-- `ConnectionManager.list_connections(from_specific_config_file=...)` for a
single source file: start from an empty list and extend it with the parsed
file when the file exists, is readable and non-empty. -/
def ConnectionManager.list_connections (source_file : Option ConnectionList) :
    ConnectionList :=
  match source_file with
  | none => []
  | some l => ConnectionList.extend_connections [] l

/-- `ConnectionManager.set_connection` (src/hsbt/connection_manager.py lines
102-121): read the target config file, insert the new connection, write the
result back to the target config file (modelled by returning the new file
content) and return the connection. -/
def ConnectionManager.set_connection (target_file : Option ConnectionList)
    (identifier user host key_dir : String)
    (overwrite_existing exists_ok : Bool) : Except String (ConnectionList × Connection) :=
  let existing_cons := ConnectionManager.list_connections target_file
  let con : Connection :=
    { identifier := identifier, host := host, user := user, key_dir := key_dir }
  match ConnectionList.set_connection existing_cons con overwrite_existing exists_ok with
  | Except.error msg => Except.error msg
  | Except.ok newlist => Except.ok (newlist, con)

/-- `ConnectionManager.get_connection` (src/hsbt/connection_manager.py lines
123-141): search the source files in order and return the first hit,
falling back to `default`. -/
def ConnectionManager.get_connection (sources : List (Option ConnectionList))
    (identifier : String) (default : Option Connection) : Option Connection :=
  match sources with
  | [] => default
  | none :: rest => ConnectionManager.get_connection rest identifier default
  | some l :: rest =>
    match ConnectionList.get_connection l identifier with
    | some con => some con
    | none => ConnectionManager.get_connection rest identifier default

theorem extend_connections_nil_left (l : ConnectionList) :
    ConnectionList.extend_connections [] l = l := by
  simp [ConnectionList.extend_connections, dict_get]

/-- C5: connection-profile persistence round trip. With the default
arguments (`overwrite_existing=False`, `exists_ok=True`), whenever
`ConnectionManager.set_connection` succeeds and writes the new connection
list to the target config file, `get_connection` with the same identifier
reading from that file returns a `Connection` whose `identifier`, `user`,
`host` and `key_dir` equal the values given. -/
theorem claim_C5_persistence_roundtrip (target_file : Option ConnectionList)
    (identifier user host key_dir : String) (newlist : ConnectionList) (con : Connection)
    (h : ConnectionManager.set_connection target_file identifier user host key_dir
      false true = Except.ok (newlist, con)) :
    ConnectionManager.get_connection [some newlist] identifier none = some con ∧
    con.identifier = identifier ∧ con.user = user ∧ con.host = host ∧
    con.key_dir = key_dir := by
  rw [ConnectionManager.set_connection] at h
  simp only [ConnectionList.set_connection] at h
  by_cases hex : dict_get (ConnectionManager.list_connections target_file) identifier = none
  · rw [if_neg (by simp [hex])] at h
    rw [if_neg (by simp [hex])] at h
    simp only [Except.ok.injEq, Prod.mk.injEq] at h
    obtain ⟨hlist, hcon⟩ := h
    subst hcon
    refine ⟨?_, rfl, rfl, rfl, rfl⟩
    rw [ConnectionManager.get_connection, ConnectionList.get_connection, ← hlist,
      dict_get_dict_set_self]
  · rw [if_pos (by simp [hex])] at h
    exact absurd h (by simp)

theorem claim_C5_persistence_roundtrip_witness :
    ConnectionManager.get_connection
        [some [("box1", ⟨"box1", "u1.your-storagebox.de", "u1", "/root/keys"⟩)]]
        "box1" none =
      some ⟨"box1", "u1.your-storagebox.de", "u1", "/root/keys"⟩ ∧
    ("box1" : String) = "box1" ∧ ("u1" : String) = "u1" ∧
    ("u1.your-storagebox.de" : String) = "u1.your-storagebox.de" ∧
    ("/root/keys" : String) = "/root/keys" := by
  exact claim_C5_persistence_roundtrip none "box1" "u1" "u1.your-storagebox.de"
    "/root/keys" [("box1", ⟨"box1", "u1.your-storagebox.de", "u1", "/root/keys"⟩)]
    ⟨"box1", "u1.your-storagebox.de", "u1", "/root/keys"⟩ (by rfl)

/-- C8: duplicate-identifier behaviour of `set_connection`. With
`ovewrite_existing=False` a duplicate identifier always raises `ValueError`,
for every value of `exist_ok` (the `exist_ok` branch is unreachable in this
case, and no update to the connection dict happens); consequently
`ConnectionManager.set_connection` with its default arguments
(`overwrite_existing=False`, `exists_ok=True`) raises on a duplicate
identifier. -/
theorem claim_C8_duplicate_identifier :
    (∀ (self : ConnectionList) (con : Connection) (exist_ok : Bool),
      dict_get self con.identifier ≠ none →
      ConnectionList.set_connection self con false exist_ok =
        Except.error ("Connection \x27" ++ con.identifier ++ "\x27 already exist.")) ∧
    (∀ (target_file : ConnectionList) (identifier user host key_dir : String),
      dict_get target_file identifier ≠ none →
      ∃ msg, ConnectionManager.set_connection (some target_file) identifier user host
        key_dir false true = Except.error msg) := by
  constructor
  · intro self con exist_ok hdup
    rw [ConnectionList.set_connection, if_pos ⟨hdup, rfl⟩]
  · intro target_file identifier user host key_dir hdup
    refine ⟨"Connection \x27" ++ identifier ++ "\x27 already exist.", ?_⟩
    rw [ConnectionManager.set_connection]
    simp only [ConnectionManager.list_connections, extend_connections_nil_left]
    rw [ConnectionList.set_connection, if_pos ⟨hdup, rfl⟩]

theorem claim_C8_duplicate_identifier_witness :
    ((dict_get ([("a", ⟨"a", "h", "u", "k"⟩)] : ConnectionList) "a" ≠ none) ∧
      ConnectionList.set_connection [("a", ⟨"a", "h", "u", "k"⟩)]
        ⟨"a", "h2", "u2", "k2"⟩ false true =
        Except.error ("Connection \x27" ++ "a" ++ "\x27 already exist.")) ∧
    ∃ msg, ConnectionManager.set_connection (some [("a", ⟨"a", "h", "u", "k"⟩)])
      "a" "u2" "h2" "k2" false true = Except.error msg :=
  ⟨⟨by decide,
    (claim_C8_duplicate_identifier.1 [("a", ⟨"a", "h", "u", "k"⟩)]
      ⟨"a", "h2", "u2", "k2"⟩ true (by decide))⟩,
    claim_C8_duplicate_identifier.2 [("a", ⟨"a", "h", "u", "k"⟩)] "a" "u2" "h2" "k2"
      (by decide)⟩

/-- `ConnectionManagerFiles`: the config files a `ConnectionManager`
instance searches — the target config file followed by the alternative
config file sources (each `none` when the file is missing or unreadable). -/
structure ConnectionManagerFiles where
  target_config_file : Option ConnectionList
  alternative_config_file_sources : List (Option ConnectionList)
  deriving DecidableEq, Repr

/-- The search of `ConnectionManager.delete_connection`: first source file
(in order) that exists and contains the identifier. -/
def find_connection_source (sources : List (Option ConnectionList))
    (identifier : String) : Option ConnectionList :=
  match sources with
  | [] => none
  | none :: rest => find_connection_source rest identifier
  | some l :: rest =>
    if ConnectionList.get_connection l identifier ≠ none then some l
    else find_connection_source rest identifier

/-- `ConnectionManager.delete_connection` (src/hsbt/connection_manager.py
lines 143-173): search target then alternative files; on a hit, remove the
connection from the parsed list and write that list to
`self.target_config_file` (whichever file the hit came from), returning
`True`; otherwise raise unless `missing_ok`. -/
def ConnectionManager.delete_connection (fs : ConnectionManagerFiles)
    (identifier : String) (missing_ok : Bool) :
    Except String (ConnectionManagerFiles × Bool) :=
  match find_connection_source
      (fs.target_config_file :: fs.alternative_config_file_sources) identifier with
  | some conlist =>
    Except.ok
      ({ target_config_file :=
            some (ConnectionList.remove_connection conlist identifier)
         alternative_config_file_sources := fs.alternative_config_file_sources },
        true)
  | none =>
    if missing_ok = true then Except.ok (fs, false)
    else Except.error ("Could not find connection with identifier \x27" ++
      identifier ++ "\x27.")

/-- C9: write target of `delete_connection`. Whenever the identifier is
found in one of the searched config files, the resulting connection list is
written to the manager's `target_config_file`, and the alternative config
files are never modified — even when the hit came from an alternative file,
whose remaining connections then overwrite the target file. -/
theorem claim_C9_delete_write_target (fs : ConnectionManagerFiles)
    (identifier : String) (missing_ok : Bool) (conlist : ConnectionList)
    (hfound : find_connection_source
      (fs.target_config_file :: fs.alternative_config_file_sources) identifier =
      some conlist) :
    ConnectionManager.delete_connection fs identifier missing_ok =
      Except.ok
        ({ target_config_file :=
              some (ConnectionList.remove_connection conlist identifier)
           alternative_config_file_sources := fs.alternative_config_file_sources },
          true) := by
  rw [ConnectionManager.delete_connection, hfound]

theorem claim_C9_delete_write_target_witness :
    (find_connection_source
        ((⟨none, [some [("a", ⟨"a", "h", "u", "k"⟩), ("b", ⟨"b", "h", "u", "k"⟩)]]⟩ :
            ConnectionManagerFiles).target_config_file ::
          (⟨none, [some [("a", ⟨"a", "h", "u", "k"⟩), ("b", ⟨"b", "h", "u", "k"⟩)]]⟩ :
            ConnectionManagerFiles).alternative_config_file_sources) "a" =
      some [("a", ⟨"a", "h", "u", "k"⟩), ("b", ⟨"b", "h", "u", "k"⟩)]) ∧
    ConnectionManager.delete_connection
        ⟨none, [some [("a", ⟨"a", "h", "u", "k"⟩), ("b", ⟨"b", "h", "u", "k"⟩)]]⟩
        "a" false =
      Except.ok
        (⟨some [("b", ⟨"b", "h", "u", "k"⟩)],
          [some [("a", ⟨"a", "h", "u", "k"⟩), ("b", ⟨"b", "h", "u", "k"⟩)]]⟩, true) := by
  refine ⟨by decide, ?_⟩
  have h := claim_C9_delete_write_target
    ⟨none, [some [("a", ⟨"a", "h", "u", "k"⟩), ("b", ⟨"b", "h", "u", "k"⟩)]]⟩
    "a" false [("a", ⟨"a", "h", "u", "k"⟩), ("b", ⟨"b", "h", "u", "k"⟩)] (by decide)
  rw [h]
  rfl

/-! ## src/hsbt/utils.py : parse_ls_l_output (claim C6) -/

/-- `FileInfo` pydantic model. -/
structure FileInfo where
  type_ : String
  permissions : String
  hardlink_no : String
  owner : String
  group : String
  size : String
  date : String
  name : String
  deriving DecidableEq, Repr

/-- Python `str.split(sep)` for a single-character separator (keeps empty
fields; `"".split(sep) == [""]`). -/
def py_split_all (sep : Char) : List Char → List (List Char)
  | [] => [[]]
  | ch :: rest =>
    let r := py_split_all sep rest
    if ch = sep then [] :: r
    else (ch :: r.headD []) :: r.tail

/-- Python `str.startswith(pre)`. -/
def py_starts_with (line pre : String) : Bool :=
  pre.data.isPrefixOf line.data

/-- Python `"\n" in line` style containment of a single character. -/
def py_contains_char (line : String) (ch : Char) : Bool :=
  line.data.contains ch

/-- Python `str.splitlines`-free line splitting used by the parser:
`ls_output.split("\n")`. -/
def py_split_newlines (out : String) : List String :=
  (py_split_all (Char.ofNat 10) out.data).map (fun cs => String.mk cs)

/-- `extract_file_name` inside `parse_ls_l_output`: the text after the first
single quote and before the second (Python `line.split("\x27")[1]`) when the
line contains a quote, otherwise the last field of `line.split(" ")`. -/
def extract_file_name (ls_line : String) : String :=
  if py_contains_char ls_line (Char.ofNat 39) then
    String.mk ((py_split_all (Char.ofNat 39) ls_line.data).getD 1 [])
  else
    String.mk ((py_split_all (Char.ofNat 32) ls_line.data).getLastD [])

/-- Fixpoint of the `while "  " in line: line = line.replace("  ", " ")`
loop: collapse every run of spaces to a single space. -/
def collapse_double_spaces : List Char → List Char
  | [] => []
  | [ch] => [ch]
  | c1 :: c2 :: rest =>
    if c1 = Char.ofNat 32 ∧ c2 = Char.ofNat 32 then collapse_double_spaces (c2 :: rest)
    else c1 :: collapse_double_spaces (c2 :: rest)

/-- Python `str.split(sep, maxsplit)` for a single-character separator:
split at the first `maxsplit` occurrences, keeping empty fields. -/
def py_split_max (sep : Char) : Nat → List Char → List (List Char)
  | 0, cs => [cs]
  | n + 1, cs =>
    let pre := cs.takeWhile (fun ch => ch != sep)
    let post := cs.dropWhile (fun ch => ch != sep)
    match post with
    | [] => [cs]
    | _ :: rest => pre :: py_split_max sep n rest

/-- The column computation of `parse_ls_l_output` for one line: collapse
double spaces, `split(" ", 9)`, drop empty fields. -/
def parse_ls_line_columns (line : String) : List String :=
  ((py_split_max (Char.ofNat 32) 9 (collapse_double_spaces line.data)).map
    (fun cs => String.mk cs)).filter (fun field => field != "")

/-- Construction of the `FileInfo` record from the 9 columns (the first
column is split into file type and permissions, columns 6-8 are joined into
the date string, and the name comes from `extract_file_name`). -/
def mk_file_info (data : List String) (file_name : String) : FileInfo :=
  let d0 := data.headD ""
  let data2 := String.mk (d0.data.take 1) :: String.mk (d0.data.drop 1) :: data.tail
  { type_ := data2.getD 0 ""
    permissions := data2.getD 1 ""
    hardlink_no := data2.getD 2 ""
    owner := data2.getD 3 ""
    group := data2.getD 4 ""
    size := data2.getD 5 ""
    date := join_with " " ((data2.drop 6).take 3)
    name := file_name }

/-- The per-line loop of `parse_ls_l_output` over the lines of the input,
accumulating the `FileInfoCollection` dict; a line that does not yield
exactly 9 columns raises `ValueError` (modelled as `Except.error`). -/
def parse_ls_lines : List String → List (String × FileInfo) →
    Except String (List (String × FileInfo))
  | [], files => Except.ok files
  | line :: rest, files =>
    if py_starts_with line "total " = false ∧ line.length > 10 then
      let file_name := extract_file_name line
      let data := parse_ls_line_columns line
      if data.length = 9 then
        parse_ls_lines rest (dict_set files file_name (mk_file_info data file_name))
      else
        Except.error ("Could not parse ls -l output. Expected 9 columns per line got " ++
          toString data.length)
    else parse_ls_lines rest files

/-- `parse_ls_l_output` (src/hsbt/utils.py lines 76-115). -/
def parse_ls_l_output (ls_output : String) : Except String (List (String × FileInfo)) :=
  parse_ls_lines (py_split_newlines ls_output) []

/-- C6: per-line behaviour of `parse_ls_l_output`. The input is split into
lines; a line starting with `total ` or of length at most 10 is ignored;
any other line either adds exactly one `FileInfo` keyed by the extracted
file name (when collapsing repeated spaces and dropping empty fields yields
exactly 9 columns) or makes the whole parse raise `ValueError`. -/
theorem claim_C6_parse_ls (ls_output : String) :
    (parse_ls_l_output ls_output = parse_ls_lines (py_split_newlines ls_output) []) ∧
    (∀ (line : String) (rest : List String) (files : List (String × FileInfo)),
      (py_starts_with line "total " = true ∨ line.length ≤ 10) →
      parse_ls_lines (line :: rest) files = parse_ls_lines rest files) ∧
    (∀ (line : String) (rest : List String) (files : List (String × FileInfo)),
      py_starts_with line "total " = false → line.length > 10 →
      (parse_ls_line_columns line).length = 9 →
      parse_ls_lines (line :: rest) files =
        parse_ls_lines rest (dict_set files (extract_file_name line)
          (mk_file_info (parse_ls_line_columns line) (extract_file_name line)))) ∧
    (∀ (line : String) (rest : List String) (files : List (String × FileInfo)),
      py_starts_with line "total " = false → line.length > 10 →
      (parse_ls_line_columns line).length ≠ 9 →
      parse_ls_lines (line :: rest) files =
        Except.error ("Could not parse ls -l output. Expected 9 columns per line got " ++
          toString (parse_ls_line_columns line).length)) := by
  refine ⟨rfl, ?_, ?_, ?_⟩
  · intro line rest files hskip
    rw [parse_ls_lines]
    rcases hskip with h1 | h2
    · rw [if_neg (by simp [h1])]
    · rw [if_neg (fun hcontra => absurd hcontra.2 (by omega))]
  · intro line rest files h1 h2 h9
    rw [parse_ls_lines, if_pos ⟨h1, h2⟩]
    simp only [h9, if_pos]
  · intro line rest files h1 h2 h9
    rw [parse_ls_lines, if_pos ⟨h1, h2⟩]
    rw [if_neg h9]

theorem claim_C6_parse_ls_witness :
    (parse_ls_l_output "zzz" = parse_ls_lines (py_split_newlines "zzz") []) ∧
    (py_starts_with "total 4" "total " = true ∨ ("total 4" : String).length ≤ 10) ∧
    parse_ls_lines ["total 4"] [] = parse_ls_lines [] [] ∧
    (py_starts_with "-rw-r--r-- 1 own grp 42 Jan 1 00:00 data.txt" "total " =
      false) ∧
    (parse_ls_line_columns "-rw-r--r-- 1 own grp 42 Jan 1 00:00 data.txt").length = 9 ∧
    parse_ls_lines ["-rw-r--r-- 1 own grp 42 Jan 1 00:00 data.txt"] [] =
      parse_ls_lines []
        (dict_set [] (extract_file_name "-rw-r--r-- 1 own grp 42 Jan 1 00:00 data.txt")
          (mk_file_info
            (parse_ls_line_columns "-rw-r--r-- 1 own grp 42 Jan 1 00:00 data.txt")
            (extract_file_name "-rw-r--r-- 1 own grp 42 Jan 1 00:00 data.txt"))) ∧
    (parse_ls_line_columns "-rw-r--r-- 1 own grp 42            extra.txt").length ≠ 9 ∧
    parse_ls_lines ["-rw-r--r-- 1 own grp 42            extra.txt"] [] =
      Except.error ("Could not parse ls -l output. Expected 9 columns per line got " ++
        toString
          (parse_ls_line_columns "-rw-r--r-- 1 own grp 42            extra.txt").length) := by
  refine ⟨(claim_C6_parse_ls "zzz").1, Or.inl (by decide), ?_, by decide, by decide, ?_,
    by decide, ?_⟩
  · exact (claim_C6_parse_ls "").2.1 "total 4" [] [] (Or.inl (by decide))
  · exact (claim_C6_parse_ls "").2.2.1 "-rw-r--r-- 1 own grp 42 Jan 1 00:00 data.txt"
      [] [] (by decide) (by decide) (by decide)
  · exact (claim_C6_parse_ls "").2.2.2 "-rw-r--r-- 1 own grp 42            extra.txt"
      [] [] (by decide) (by decide) (by decide)

/-! ## src/hsbt/storage_box_manager.py : remote path rebasing (claim C10) -/

/-- `pathlib.PurePosixPath` model: an absolute flag and the non-root
components (each a non-empty, slash-free string; `pathlib` has already
collapsed `.` components and empty segments). Paths are taken after
`cast_path`, i.e. after `expanduser`. -/
structure PyPath where
  absolute : Bool
  comps : List String
  deriving DecidableEq, Repr

/-- `Path.parts`: for an absolute path the first part is the root `"/"`. -/
def PyPath.parts (p : PyPath) : List String :=
  if p.absolute then "/" :: p.comps else p.comps

/-- `PurePath(a, b)`: `b` replaces `a` when `b` is absolute, otherwise the
components are concatenated. -/
def pure_path_join (a b : PyPath) : PyPath :=
  if b.absolute then b else { absolute := a.absolute, comps := a.comps ++ b.comps }

/-- `HetznerStorageBox._inject_base_path_to_abs_path`
(src/hsbt/storage_box_manager.py lines 420-425): an absolute path is first
made relative by dropping its leading `"/"` part, then joined under
`remote_base_path`. -/
def inject_base_path_to_abs_path (remote_base_path path : PyPath) : PyPath :=
  let path2 : PyPath :=
    if path.parts ≠ [] ∧ path.parts.headD "" = "/" then
      { absolute := false, comps := path.parts.tail }
    else path
  pure_path_join remote_base_path path2

/-- `HetznerStorageBox.upload_file` applies
`_inject_base_path_to_abs_path` to its `remote_path` argument before
delegating to `_upload_file`. -/
def upload_file_remote_path (remote_base_path remote_path : PyPath) : PyPath :=
  inject_base_path_to_abs_path remote_base_path remote_path

/-- `HetznerStorageBox.download_file` applies
`_inject_base_path_to_abs_path` to its `remote_path` argument before
delegating to `_download_file`. -/
def download_file_remote_path (remote_base_path remote_path : PyPath) : PyPath :=
  inject_base_path_to_abs_path remote_base_path remote_path

/-- `HetznerStorageBox.list_remote_files` applies
`_inject_base_path_to_abs_path` to its `remote_path` argument before
delegating to `_list_remote_files`. -/
def list_remote_files_remote_path (remote_base_path remote_path : PyPath) : PyPath :=
  inject_base_path_to_abs_path remote_base_path remote_path

/-- C10: remote-path rebasing. For every remote path argument `p` whose
components are genuine `pathlib` components (no component is the root
marker `"/"`), `_inject_base_path_to_abs_path` returns `remote_base_path`
joined with `p` made relative, so the result's components are exactly
`remote_base_path`'s components followed by `p`'s components; hence every
path addressed by `upload_file`, `download_file` and `list_remote_files`
has `remote_base_path` as a prefix. -/
theorem claim_C10_remote_path_rebasing (remote_base_path p : PyPath)
    (hcomp : "/" ∉ p.comps) :
    (inject_base_path_to_abs_path remote_base_path p).absolute =
        remote_base_path.absolute ∧
    (inject_base_path_to_abs_path remote_base_path p).comps =
        remote_base_path.comps ++ p.comps ∧
    (∃ t, (inject_base_path_to_abs_path remote_base_path p).comps =
        remote_base_path.comps ++ t) ∧
    upload_file_remote_path remote_base_path p =
        inject_base_path_to_abs_path remote_base_path p ∧
    download_file_remote_path remote_base_path p =
        inject_base_path_to_abs_path remote_base_path p ∧
    list_remote_files_remote_path remote_base_path p =
        inject_base_path_to_abs_path remote_base_path p := by
  have hmain : inject_base_path_to_abs_path remote_base_path p =
      { absolute := remote_base_path.absolute
        comps := remote_base_path.comps ++ p.comps } := by
    rw [inject_base_path_to_abs_path]
    by_cases habs : p.absolute = true
    · have hparts : p.parts = "/" :: p.comps := by rw [PyPath.parts, if_pos habs]
      rw [if_pos (by rw [hparts]; exact ⟨by simp, rfl⟩)]
      rw [hparts, pure_path_join]
      simp
    · have hparts : p.parts = p.comps := by
        rw [PyPath.parts, if_neg habs]
      have hcond : ¬(p.parts ≠ [] ∧ p.parts.headD "" = "/") := by
        rw [hparts]
        rintro ⟨hne, hhead⟩
        cases hc : p.comps with
        | nil => exact hne hc
        | cons x xs =>
          rw [hc] at hhead
          simp only [List.headD_cons] at hhead
          exact hcomp (hhead ▸ hc ▸ List.mem_cons_self x xs)
      rw [if_neg hcond, pure_path_join, if_neg habs]
  rw [hmain]
  exact ⟨rfl, rfl, ⟨p.comps, rfl⟩, hmain, hmain, hmain⟩

theorem claim_C10_remote_path_rebasing_witness :
    ("/" ∉ (⟨true, ["data", "backup.tar"]⟩ : PyPath).comps) ∧
    (inject_base_path_to_abs_path ⟨true, ["home"]⟩ ⟨true, ["data", "backup.tar"]⟩).absolute
        = (⟨true, ["home"]⟩ : PyPath).absolute ∧
    (inject_base_path_to_abs_path ⟨true, ["home"]⟩ ⟨true, ["data", "backup.tar"]⟩).comps =
        (⟨true, ["home"]⟩ : PyPath).comps ++ ["data", "backup.tar"] := by
  have h := claim_C10_remote_path_rebasing ⟨true, ["home"]⟩ ⟨true, ["data", "backup.tar"]⟩
    (by decide)
  exact ⟨by decide, h.1, h.2.1⟩

end Hsbt
